import Mathlib

/-!
Shallow embedding of the record-extraction core of the `injury` repository:
the streaming tag-event parsers of `depth_chart_scraper.py`
(`DepthChartParser`, and the parse/dedup/validate phase of
`DepthChartScraper.scrape_depth_chart`) and of `web_scraper.py`
(`DepthChartParser`), together with proofs of the specification claims
about them.

Markup is modelled at the level the specification fixes: a finite sequence
of tag-stream events (open tag with attributes, text, close tag), produced
by the external event source (Python's `html.parser.HTMLParser`).  Strings
are modelled through their character lists; the Python string operations
used by the code (`strip`, `in` substring test, `isupper`, `lower`, `len`,
`dict(attrs)` lookup, truthiness) are embedded explicitly below.
-/

/-! ### Python string primitives -/

/-- `strLeads pat s`: `pat` is an initial segment of `s`
(character-list version of a leading-segment test). -/
def strLeads : List Char → List Char → Bool
  | [], _ => true
  | _ :: _, [] => false
  | p :: ps, c :: cs => p == c && strLeads ps cs

/-- `containsSub s pat`: the Python substring test `pat in s`. -/
def containsSub (s pat : List Char) : Bool :=
  if strLeads pat s then true
  else
    match s with
    | [] => false
    | _ :: rest => containsSub rest pat

/-- Python `pat in s` on `String`s. -/
def strContains (s pat : String) : Bool :=
  containsSub s.data pat.data

/-- Python `str.strip()`: remove whitespace from both ends. -/
def stripChars (cs : List Char) : List Char :=
  ((cs.dropWhile Char.isWhitespace).reverse.dropWhile Char.isWhitespace).reverse

/-- Python `str.lower()` (ASCII fragment, as used on `class` attributes). -/
def lowerChars (cs : List Char) : List Char :=
  cs.map Char.toLower

/-- Python `str.isupper()` (ASCII fragment): at least one cased character
and no lowercase character. -/
def pyIsUpper (cs : List Char) : Bool :=
  cs.any Char.isUpper && cs.all (fun c => !c.isLower)

/-- Python truthiness of an optional string: `None` and `""` are falsy. -/
def optTruthy : Option String → Bool
  | none => false
  | some s => !(s == "")

/-- Python `dict(attrs)[key]` lookup: with duplicate keys the last
occurrence wins, hence the lookup over the reversed attribute list. -/
def attrsLookup (attrs : List (String × String)) (key : String) : Option String :=
  (attrs.reverse.find? (fun kv => kv.fst == key)).map (fun kv => kv.snd)

/-- The regex search `re.search(r's=([^&]+)', href)` of
`DepthChartParser.handle_starttag` (depth_chart_scraper.py line 74):
find the leftmost occurrence of `s=` followed by at least one
non-`&` character and capture the maximal such run. -/
def extractSlug : List Char → Option (List Char)
  | [] => none
  | c :: rest =>
    if strLeads ['s', '='] (c :: rest) then
      let captured := (rest.drop 1).takeWhile (fun ch => !(ch == '&'))
      if captured.isEmpty then extractSlug rest else some captured
    else extractSlug rest

/-! ### Tag-stream events -/

/-- A tag-stream event, as produced in document order by the external
event source (`HTMLParser` dispatching to the three handler methods). -/
inductive Event where
  | openTag (name : String) (attrs : List (String × String))
  | text (content : String)
  | closeTag (name : String)
deriving DecidableEq, Repr

/-- An event stream that may additionally signal malformed markup by
raising mid-stream, as the underlying `HTMLParser.feed` can inside the
`try` block of `scrape_depth_chart`. -/
inductive REvent where
  | ev (e : Event)
  | raiseErr
deriving DecidableEq, Repr

/-! ### depth_chart_scraper.DepthChartParser -/

/-- A team record `{'team': ..., 'slug': ...}`. -/
structure Team where
  team : String
  slug : String
deriving DecidableEq, Repr

/-- Diagnostics the extraction pipeline logs (advisory channel). -/
inductive Diag where
  | overwrite (old new : String)
  | unpaired (name : String)
  | structuralEmpty
  | parseException
deriving DecidableEq, Repr

/-- Mutable state of `depth_chart_scraper.DepthChartParser`. -/
structure ParserState where
  teams : List Team
  currentLink : Option String
  pendingTeamName : Option String
  inTeamName : Bool
  tagCount : Nat
  textCount : Nat
  diags : List Diag
deriving DecidableEq, Repr

/-- `DepthChartParser.__init__`. -/
def initState : ParserState :=
  { teams := [], currentLink := none, pendingTeamName := none,
    inTeamName := false, tagCount := 0, textCount := 0, diags := [] }

/-- The anchor branch of `handle_starttag` (lines 69-87): on
`<a href=...>` whose href contains `depth-chart.aspx` and `s=`, extract
the slug, record it as the current link, and, if a team name is pending,
emit the paired team record and clear the buffer. -/
def handleA (st : ParserState) (tag : String) (attrs : List (String × String)) :
    ParserState :=
  if tag == "a" then
    match attrsLookup attrs "href" with
    | some href =>
      if strContains href "depth-chart.aspx" && strContains href "s=" then
        match extractSlug href.data with
        | some slugCs =>
          let st1 := { st with currentLink := some (String.mk slugCs) }
          if optTruthy st1.pendingTeamName then
            { st1 with
              teams := st1.teams ++
                [{ team := st1.pendingTeamName.getD "", slug := String.mk slugCs }],
              pendingTeamName := none }
          else st1
        | none => st
      else st
    | none => st
  else st

/-- The team-name-div branch of `handle_starttag` (lines 89-94). -/
def handleDiv (st : ParserState) (tag : String) (attrs : List (String × String)) :
    ParserState :=
  if tag == "div" then
    match attrsLookup attrs "class" with
    | some cls =>
      if strContains cls "team-name" || strContains cls "mm-team-name" then
        { st with inTeamName := true }
      else st
    | none => st
  else st

/-- `DepthChartParser.handle_starttag` (lines 58-94): bump the tag count,
then run the anchor branch and the div branch in order. -/
def handleStarttag (st : ParserState) (tag : String)
    (attrs : List (String × String)) : ParserState :=
  handleDiv (handleA { st with tagCount := st.tagCount + 1 } tag attrs) tag attrs

/-- `DepthChartParser.handle_data` (lines 96-112): strip; ignore empty
text; bump the text count; if inside a team-name div, buffer the text as
the pending team name (logging an overwrite warning if one was already
buffered) and leave the div context. -/
def handleData (st : ParserState) (data : String) : ParserState :=
  let d := stripChars data.data
  if d.isEmpty then st
  else
    let st1 := { st with textCount := st.textCount + 1 }
    if st1.inTeamName then
      let st2 :=
        if optTruthy st1.pendingTeamName then
          { st1 with diags := st1.diags ++
              [Diag.overwrite (st1.pendingTeamName.getD "") (String.mk d)] }
        else st1
      { st2 with pendingTeamName := some (String.mk d), inTeamName := false }
    else st1

/-- `DepthChartParser.handle_endtag` (lines 114-117). -/
def handleEndtag (st : ParserState) (tag : String) : ParserState :=
  if tag == "div" then { st with inTeamName := false } else st

/-- One event dispatched to the corresponding handler. -/
def step (st : ParserState) : Event → ParserState
  | Event.openTag tag attrs => handleStarttag st tag attrs
  | Event.text d => handleData st d
  | Event.closeTag tag => handleEndtag st tag

/-- `parser.feed(html)` over a pure event stream, from the fresh state. -/
def feedP (events : List Event) : ParserState :=
  events.foldl step initState

/-- `parser.feed(html)` over a possibly-raising stream: on a mid-stream
raise the exception escapes `feed` carrying the state (and records)
accumulated so far. -/
def feedR (st : ParserState) : List REvent → Except ParserState ParserState
  | [] => Except.ok st
  | REvent.ev e :: rest => feedR (step st e) rest
  | REvent.raiseErr :: _ => Except.error st

/-- Truthiness validation of a team record, as in
`scrape_depth_chart` lines 383-386 (`t.get('team') and t.get('slug')`). -/
def teamValid (t : Team) : Bool :=
  !(t.team == "") && !(t.slug == "")

/-- The dedup loop of `scrape_depth_chart` lines 368-375: walk the
records in order, keeping a record only if its slug was not seen before. -/
def dedupBy (seen : List String) : List Team → List Team
  | [] => []
  | t :: rest =>
    if seen.contains t.slug then dedupBy seen rest
    else t :: dedupBy (t.slug :: seen) rest

/-- Deduplication of the parsed team list by slug, first occurrence wins. -/
def dedupTeams (ts : List Team) : List Team :=
  dedupBy [] ts

/-- The record output of the post-parse phase as a function of the
accumulated team list alone: empty-check, dedup by slug, truthiness
validation (lines 350-388). -/
def teamsOutput (ts : List Team) : List Team :=
  if ts.length == 0 then []
  else (dedupTeams ts).filter (fun t => teamValid t)

/-- The parse phase of `DepthChartScraper.scrape_depth_chart`
(lines 337-396), over an already-fetched event stream: feed the parser
inside `try`; on an exception return `[]` with a parse-exception
diagnostic; otherwise warn about an unpaired pending name, report a
structural-empty diagnostic on zero records, else dedup and validate. -/
def scrapePhase (revents : List REvent) : List Team × List Diag :=
  match feedR initState revents with
  | Except.error st => ([], st.diags ++ [Diag.parseException])
  | Except.ok st =>
    let d1 :=
      if optTruthy st.pendingTeamName then
        st.diags ++ [Diag.unpaired (st.pendingTeamName.getD "")]
      else st.diags
    if st.teams.length == 0 then ([], d1 ++ [Diag.structuralEmpty])
    else
      ((dedupTeams st.teams).filter (fun t => teamValid t), d1)


/-! ### web_scraper.DepthChartParser -/

/-- The depth chart mapping of `web_scraper.DepthChartParser`:
team name, to position code, to the list of player texts, modelling
Python's insertion-ordered nested dicts as association lists. -/
abbrev DepthChart := List (String × List (String × List String))

/-- Mutable state of `web_scraper.DepthChartParser`. -/
structure WSState where
  depthChart : DepthChart
  currentTeam : Option String
  currentPosition : Option String
deriving DecidableEq, Repr

/-- `web_scraper.DepthChartParser.__init__`. -/
def wsInit : WSState :=
  { depthChart := [], currentTeam := none, currentPosition := none }

/-- The position-code classification condition of
`web_scraper.DepthChartParser.handle_data` line 105:
`data.isupper() and len(data) <= 4`. -/
def isLikelyPositionCode (d : List Char) : Bool :=
  pyIsUpper d && decide (d.length ≤ 4)

/-- Append a player under a position inside one team's insertion-ordered
position dict (`depth_chart[team][pos].append(data)` with the
`if ... not in ...` dict/list initialisations of lines 108-112). -/
def posAppend (ps : List (String × List String)) (pos player : String) :
    List (String × List String) :=
  match ps with
  | [] => [(pos, [player])]
  | (p, players) :: rest =>
    if p == pos then (p, players ++ [player]) :: rest
    else (p, players) :: posAppend rest pos player

/-- Append a player under `(team, pos)` in the nested depth-chart dict. -/
def dcAppend (dc : DepthChart) (team pos player : String) : DepthChart :=
  match dc with
  | [] => [(team, [(pos, [player])])]
  | (t, ps) :: rest =>
    if t == team then (t, posAppend ps pos player) :: rest
    else (t, ps) :: dcAppend rest team pos player

/-- `web_scraper.DepthChartParser.handle_starttag` (lines 88-94): on an
`h2`/`h3` tag with a class attribute whose lowercased value contains
`team`, assign `None` to the current team. -/
def wsHandleStarttag (st : WSState) (tag : String)
    (attrs : List (String × String)) : WSState :=
  if (tag == "h2" || tag == "h3")
      && attrs.any (fun kv =>
           kv.fst == "class" && containsSub (lowerChars kv.snd.data) "team".data)
  then { st with currentTeam := none }
  else st

/-- `web_scraper.DepthChartParser.handle_data` (lines 96-112): strip;
ignore empty text; while a team is set, classify short all-uppercase text
as the current position, and otherwise, if a position is set, append the
text as a further player at the current team and position. -/
def wsHandleData (st : WSState) (data : String) : WSState :=
  let d := stripChars data.data
  if d.isEmpty then st
  else
    if optTruthy st.currentTeam then
      if isLikelyPositionCode d then
        { st with currentPosition := some (String.mk d) }
      else
        if optTruthy st.currentPosition then
          let tm := st.currentTeam.getD ""
          let ps := st.currentPosition.getD ""
          { st with depthChart := dcAppend st.depthChart tm ps (String.mk d) }
        else st
    else st

/-- One event dispatched to `web_scraper.DepthChartParser`; the class
does not override `handle_endtag`, so close tags are ignored. -/
def wsStep (st : WSState) : Event → WSState
  | Event.openTag tag attrs => wsHandleStarttag st tag attrs
  | Event.text d => wsHandleData st d
  | Event.closeTag _ => st

/-- Feed a list of events to `web_scraper.DepthChartParser` from a given
state. -/
def wsRun (st : WSState) (events : List Event) : WSState :=
  events.foldl wsStep st

/-- A full parse from the fresh state, as in
`WebScraper.fetch_depth_chart` (which returns `parser.depth_chart`
unchanged: no finalize or dedup pass is applied to player records). -/
def wsFeed (events : List Event) : WSState :=
  wsRun wsInit events

/-- The position-code predicate as the specification words it:
2-4 characters, entirely uppercase, entirely alphabetic. -/
def specPositionCode (d : List Char) : Bool :=
  decide (2 ≤ d.length) && decide (d.length ≤ 4)
    && d.all Char.isUpper && d.all Char.isAlpha


/-! ### Deduplication lemmas (scrape_depth_chart lines 368-375) -/

theorem dedupBy_sublist (ts : List Team) (seen : List String) :
    List.Sublist (dedupBy seen ts) ts := by
  induction ts generalizing seen with
  | nil => simp [dedupBy]
  | cons t rest ih =>
    rw [dedupBy]
    by_cases hc : seen.contains t.slug = true
    · simp only [hc, if_true]
      exact (ih seen).trans (List.sublist_cons_self t rest)
    · simp only [hc, if_false]
      exact (ih (t.slug :: seen)).cons₂ t

theorem dedupBy_find (ts : List Team) (seen : List String) (s : String)
    (hs : seen.contains s = false) :
    (dedupBy seen ts).find? (fun t => t.slug == s)
      = ts.find? (fun t => t.slug == s) := by
  induction ts generalizing seen with
  | nil => rfl
  | cons t rest ih =>
    rw [dedupBy]
    by_cases hc : seen.contains t.slug = true
    · have hts : (t.slug == s) = false := by
        by_cases he : t.slug = s
        · rw [he] at hc
          rw [hc] at hs
          exact absurd hs (by simp)
        · exact beq_eq_false_iff_ne.mpr he
      rw [if_pos hc]
      simp only [List.find?_cons, hts]
      exact ih seen hs
    · rw [if_neg hc]
      by_cases hts : (t.slug == s) = true
      · simp [List.find?_cons, hts]
      · have hts' : (t.slug == s) = false := Bool.eq_false_iff.mpr hts
        simp only [List.find?_cons, hts']
        apply ih (t.slug :: seen)
        show (s == t.slug || seen.contains s) = false
        have : (s == t.slug) = false := by
          apply beq_eq_false_iff_ne.mpr
          intro he
          exact (beq_eq_false_iff_ne.mp hts') he.symm
        rw [this, hs]
        rfl

theorem dedupBy_slug_spec (ts : List Team) (seen : List String) :
    ((dedupBy seen ts).map Team.slug).Nodup
    ∧ ∀ t ∈ dedupBy seen ts, seen.contains t.slug = false := by
  induction ts generalizing seen with
  | nil => exact ⟨List.nodup_nil, by intro t ht; cases ht⟩
  | cons t rest ih =>
    rw [dedupBy]
    by_cases hc : seen.contains t.slug = true
    · rw [if_pos hc]
      exact ih seen
    · rw [if_neg hc]
      obtain ⟨ihn, ihm⟩ := ih (t.slug :: seen)
      constructor
      · rw [List.map_cons, List.nodup_cons]
        refine ⟨?_, ihn⟩
        intro hmem
        obtain ⟨t', ht', hslug⟩ := List.mem_map.mp hmem
        have := ihm t' ht'
        rw [show ((t.slug :: seen).contains t'.slug)
            = (t'.slug == t.slug || seen.contains t'.slug) from rfl] at this
        have h1 : (t'.slug == t.slug) = true := beq_iff_eq.mpr hslug
        rw [h1] at this
        simp at this
      · intro t' ht'
        rcases List.mem_cons.mp ht' with rfl | hmem
        · exact Bool.eq_false_iff.mpr hc
        · have := ihm t' hmem
          rw [show ((t.slug :: seen).contains t'.slug)
              = (t'.slug == t.slug || seen.contains t'.slug) from rfl] at this
          exact (Bool.or_eq_false_iff.mp this).2

theorem card_insert_sdiff (a : String) (F S : Finset String) (ha : a ∉ S) :
    (insert a F \ S).card = (F \ insert a S).card + 1 := by
  rw [Finset.insert_sdiff_of_not_mem F ha, Finset.sdiff_insert]
  by_cases hm : a ∈ F \ S
  · rw [Finset.insert_eq_self.mpr hm, ← Finset.card_erase_add_one hm]
  · rw [Finset.card_insert_of_not_mem hm, Finset.erase_eq_of_not_mem hm]

theorem dedupBy_length (ts : List Team) (seen : List String) :
    (dedupBy seen ts).length
      = ((ts.map Team.slug).toFinset \ seen.toFinset).card := by
  induction ts generalizing seen with
  | nil => simp [dedupBy]
  | cons t rest ih =>
    rw [dedupBy, List.map_cons, List.toFinset_cons]
    by_cases hc : seen.contains t.slug = true
    · have hmem : t.slug ∈ seen.toFinset :=
        List.mem_toFinset.mpr (List.elem_iff.mp hc)
      rw [if_pos hc, ih seen, Finset.insert_sdiff_of_mem _ hmem]
    · have hmem : t.slug ∉ seen.toFinset := by
        intro hm
        exact hc (List.elem_iff.mpr (List.mem_toFinset.mp hm))
      rw [if_neg hc]
      rw [List.length_cons, ih (t.slug :: seen), List.toFinset_cons,
        card_insert_sdiff t.slug _ _ hmem]

/-- C3: for every finite input sequence of valid team records, the dedup
pass of `scrape_depth_chart` keeps exactly the first record (by input
order) of each slug: lookups by slug agree with the input, each slug
survives at most once, the survivors form an order-preserving sublist of
the input, the subsequent truthiness validation drops nothing, and the
output length equals the number of distinct slugs among valid records. -/
theorem finalize_dedup_first_wins (records : List Team)
    (hvalid : ∀ t ∈ records, teamValid t = true) :
    (∀ s : String, (dedupTeams records).find? (fun t => t.slug == s)
        = records.find? (fun t => t.slug == s))
    ∧ ((dedupTeams records).map Team.slug).Nodup
    ∧ List.Sublist (dedupTeams records) records
    ∧ (dedupTeams records).filter (fun t => teamValid t) = dedupTeams records
    ∧ (dedupTeams records).length
      = (((records.filter (fun t => teamValid t)).map Team.slug).toFinset).card := by
  have hsub := dedupBy_sublist records []
  refine ⟨?_, (dedupBy_slug_spec records []).1, hsub, ?_, ?_⟩
  · intro s
    exact dedupBy_find records [] s rfl
  · apply List.filter_eq_self.mpr
    intro t ht
    exact hvalid t (hsub.subset ht)
  · rw [List.filter_eq_self.mpr hvalid]
    rw [show dedupTeams records = dedupBy [] records from rfl,
      dedupBy_length records []]
    simp

theorem finalize_dedup_first_wins_witness :
    (∀ s : String,
      (dedupTeams [⟨"Crimson Tide", "alabama"⟩, ⟨"Bulldogs", "georgia"⟩,
          ⟨"Tide Again", "alabama"⟩]).find? (fun t => t.slug == s)
        = ([⟨"Crimson Tide", "alabama"⟩, ⟨"Bulldogs", "georgia"⟩,
          ⟨"Tide Again", "alabama"⟩] : List Team).find? (fun t => t.slug == s))
    ∧ ((dedupTeams [⟨"Crimson Tide", "alabama"⟩, ⟨"Bulldogs", "georgia"⟩,
          ⟨"Tide Again", "alabama"⟩]).map Team.slug).Nodup
    ∧ List.Sublist
        (dedupTeams [⟨"Crimson Tide", "alabama"⟩, ⟨"Bulldogs", "georgia"⟩,
          ⟨"Tide Again", "alabama"⟩])
        [⟨"Crimson Tide", "alabama"⟩, ⟨"Bulldogs", "georgia"⟩,
          ⟨"Tide Again", "alabama"⟩]
    ∧ (dedupTeams [⟨"Crimson Tide", "alabama"⟩, ⟨"Bulldogs", "georgia"⟩,
          ⟨"Tide Again", "alabama"⟩]).filter (fun t => teamValid t)
      = dedupTeams [⟨"Crimson Tide", "alabama"⟩, ⟨"Bulldogs", "georgia"⟩,
          ⟨"Tide Again", "alabama"⟩]
    ∧ (dedupTeams [⟨"Crimson Tide", "alabama"⟩, ⟨"Bulldogs", "georgia"⟩,
          ⟨"Tide Again", "alabama"⟩]).length
      = ((([⟨"Crimson Tide", "alabama"⟩, ⟨"Bulldogs", "georgia"⟩,
          ⟨"Tide Again", "alabama"⟩] : List Team).filter
            (fun t => teamValid t)).map Team.slug).toFinset.card :=
  finalize_dedup_first_wins
    [⟨"Crimson Tide", "alabama"⟩, ⟨"Bulldogs", "georgia"⟩,
      ⟨"Tide Again", "alabama"⟩] (by decide)

/-- C6: buffering label "A", then overwriting it with "B" before any
pairing link, then an anchor with identifier `b`, emits exactly the one
record `{team: "B", slug: "b"}` (nothing for "A"), records an overwrite
diagnostic, and extraction continues to a normal (non-exceptional)
result. -/
theorem overwrite_tolerance :
    scrapePhase
      [REvent.ev (Event.openTag "div" [("class", "team-name")]),
       REvent.ev (Event.text "A"),
       REvent.ev (Event.openTag "div" [("class", "team-name")]),
       REvent.ev (Event.text "B"),
       REvent.ev (Event.openTag "a" [("href", "depth-chart.aspx?s=b&id=2")])]
      = ([{ team := "B", slug := "b" }], [Diag.overwrite "A" "B"]) := by
  decide

/-- The raising stream used to analyse the exception path of
`scrape_depth_chart`: one complete team pairing, then the event source
raises mid-stream. -/
def raisingStream : List REvent :=
  [REvent.ev (Event.openTag "div" [("class", "team-name")]),
   REvent.ev (Event.text "Alabama"),
   REvent.ev (Event.openTag "a" [("href", "depth-chart.aspx?s=alabama&id=1")]),
   REvent.raiseErr]

/-- The records accumulated by the parser up to the point where the
stream raises (or to the end, when it does not). -/
def partialTeams (revents : List REvent) : List Team :=
  match feedR initState revents with
  | Except.error st => st.teams
  | Except.ok st => st.teams

/-- C2 counterexample: on `raisingStream` the parse raises after one team
record `{Alabama, alabama}` was accumulated, yet `scrape_depth_chart`
returns the empty list (with a parse-exception diagnostic), not the
partial record sequence. -/
theorem scrape_partial_discarded_cex :
    scrapePhase raisingStream = ([], [Diag.parseException])
    ∧ partialTeams raisingStream = [{ team := "Alabama", slug := "alabama" }]
    ∧ ([] : List Team) ≠ [{ team := "Alabama", slug := "alabama" }] := by
  decide

/-- C2 amended: `scrape_depth_chart` never lets an exception escape its
boundary (the parse phase is a total function); when the underlying parse
raises mid-stream it returns the EMPTY record list — discarding the
partial records accumulated so far — and surfaces the exception only as a
diagnostic. -/
theorem scrape_empty_on_exception (revents : List REvent) (st : ParserState)
    (h : feedR initState revents = Except.error st) :
    scrapePhase revents = ([], st.diags ++ [Diag.parseException]) := by
  simp [scrapePhase, h]

theorem scrape_empty_on_exception_witness :
    scrapePhase raisingStream = ([], [Diag.parseException]) :=
  scrape_empty_on_exception raisingStream
    { teams := [{ team := "Alabama", slug := "alabama" }],
      currentLink := some "alabama", pendingTeamName := none,
      inTeamName := false, tagCount := 2, textCount := 1, diags := [] }
    (by rfl)

/-! ### web_scraper invariants -/

theorem ws_step_dead (st : WSState) (e : Event) (h : st.currentTeam = none) :
    (wsStep st e).currentTeam = none ∧ (wsStep st e).depthChart = st.depthChart := by
  cases e with
  | openTag tag attrs =>
    rw [wsStep, wsHandleStarttag]
    split
    · exact ⟨rfl, rfl⟩
    · exact ⟨h, rfl⟩
  | text d =>
    rw [wsStep, wsHandleData]
    simp only [h, optTruthy]
    split
    · exact ⟨h, rfl⟩
    · exact ⟨h, rfl⟩
  | closeTag tag => exact ⟨h, rfl⟩

theorem ws_run_dead (events : List Event) (st : WSState)
    (h : st.currentTeam = none) :
    (wsRun st events).currentTeam = none
    ∧ (wsRun st events).depthChart = st.depthChart := by
  induction events generalizing st with
  | nil => exact ⟨h, rfl⟩
  | cons e rest ih =>
    have hs := ws_step_dead st e h
    have hr := ih (wsStep st e) hs.1
    exact ⟨hr.1, hr.2.trans hs.2⟩

/-- C10: for every input fed to `web_scraper.DepthChartParser`, the
resulting depth chart is empty and no player record is ever emitted:
`handle_starttag` only ever assigns `None` to `current_team`, so the
guard requiring a current team never fires. -/
theorem ws_depth_chart_always_empty (events : List Event) :
    (wsFeed events).depthChart = [] ∧ (wsFeed events).currentTeam = none := by
  have h := ws_run_dead events wsInit rfl
  exact ⟨h.2, h.1⟩

/-- A text event that `web_scraper.DepthChartParser.handle_data`
classifies as a player while team and position context are set:
non-empty after stripping and not a position code. -/
def wsIsPlayerText (s : String) : Prop :=
  (stripChars s.data).isEmpty = false
  ∧ isLikelyPositionCode (stripChars s.data) = false

/-- C4 counterexample: with team context `Alabama` and two player texts at
the same position `QB`, the depth chart retains BOTH players ("John
Smith" then "Bob Jones"); `fetch_depth_chart` returns this mapping
unchanged, so the second player is not dropped by any finalize/dedup
pass. -/
theorem player_first_wins_cex :
    (wsRun { depthChart := [], currentTeam := some "Alabama",
             currentPosition := none }
      [Event.text "QB", Event.text "John Smith", Event.text "Bob Jones"]).depthChart
      = [("Alabama", [("QB", ["John Smith", "Bob Jones"])])]
    ∧ (["John Smith", "Bob Jones"] : List String) ≠ ["John Smith"] := by
  decide

/-- Reduction of `handle_data` on a player text: all four guards pass and
the text is appended at the current team and position. -/
theorem wsHandleData_player (st : WSState) (s : String)
    (hne : (stripChars s.data).isEmpty = false)
    (hteam : optTruthy st.currentTeam = true)
    (hcode : isLikelyPositionCode (stripChars s.data) = false)
    (hpos : optTruthy st.currentPosition = true) :
    wsHandleData st s
      = { st with depthChart :=
                    dcAppend st.depthChart (st.currentTeam.getD "")
                      (st.currentPosition.getD "") (String.mk (stripChars s.data)) } := by
  rw [wsHandleData]
  rw [if_neg (by simp_all)]
  rw [if_pos hteam]
  rw [if_neg (by simp [hcode])]
  rw [if_pos hpos]

/-- Reduction of `handle_data` on a position code while a team is set:
the stripped text becomes the current position. -/
theorem wsHandleData_position (st : WSState) (s : String)
    (hne : (stripChars s.data).isEmpty = false)
    (hteam : optTruthy st.currentTeam = true)
    (hcode : isLikelyPositionCode (stripChars s.data) = true) :
    wsHandleData st s
      = { st with currentPosition := some (String.mk (stripChars s.data)) } := by
  rw [wsHandleData]
  rw [if_neg (by simp_all)]
  rw [if_pos hteam]
  rw [if_pos hcode]

/-- C4 amended: `web_scraper` applies no first-seen-wins pass to player
records: every player text at a `(team, position)` pairing is appended
and retained in encounter order (and, from the initial state, no player
is recorded at all, since `current_team` is never set — see the C10
theorem). -/
theorem players_all_retained (team pos x y : String)
    (hteam : optTruthy (some team) = true)
    (hpos : optTruthy (some pos) = true)
    (hx : wsIsPlayerText x) (hy : wsIsPlayerText y) :
    (wsRun { depthChart := [], currentTeam := some team,
             currentPosition := some pos }
      [Event.text x, Event.text y]).depthChart
      = [(team, [(pos, [String.mk (stripChars x.data),
          String.mk (stripChars y.data)])])] := by
  obtain ⟨hx1, hx2⟩ := hx
  obtain ⟨hy1, hy2⟩ := hy
  show (wsHandleData (wsHandleData
    { depthChart := [], currentTeam := some team, currentPosition := some pos }
    x) y).depthChart = _
  rw [wsHandleData_player _ x hx1 hteam hx2 hpos]
  rw [wsHandleData_player _ y hy1 hteam hy2 hpos]
  simp [dcAppend, posAppend]

theorem players_all_retained_witness :
    (wsRun { depthChart := [], currentTeam := some "T",
             currentPosition := some "P" }
      [Event.text "John Smith", Event.text "Bob Jones"]).depthChart
      = [("T", [("P", ["John Smith", "Bob Jones"])])] :=
  players_all_retained "T" "P" "John Smith" "Bob Jones" (by decide) (by decide)
    ⟨by decide, by decide⟩ ⟨by decide, by decide⟩

/-- C5 counterexample: the one-character text "Q" satisfies the code's
position condition (`isupper() and len <= 4`) and sets
`current_position`, but fails the claimed predicate (2-4 characters,
entirely uppercase, entirely alphabetic); so does "QB1", which contains a
digit. -/
theorem position_code_cex :
    isLikelyPositionCode ("Q".data) = true
    ∧ specPositionCode ("Q".data) = false
    ∧ isLikelyPositionCode ("QB1".data) = true
    ∧ specPositionCode ("QB1".data) = false
    ∧ (wsHandleData { depthChart := [], currentTeam := some "Alabama",
                      currentPosition := none } "Q").currentPosition = some "Q" := by
  decide

/-- C5 amended: the code's position-code condition holds exactly on text
of at most 4 characters with at least one uppercase character and no
lowercase character (digits and symbols permitted, one-character codes
permitted); while a team is set, text satisfying it sets
`current_position`, and text failing it while a position is also set is
appended as a player record. -/
theorem position_code_characterization (st : WSState) (s : String)
    (hteam : optTruthy st.currentTeam = true)
    (hne : (stripChars s.data).isEmpty = false) :
    (isLikelyPositionCode (stripChars s.data) = true ↔
      ((stripChars s.data).length ≤ 4
        ∧ (∃ c ∈ stripChars s.data, c.isUpper = true)
        ∧ ∀ c ∈ stripChars s.data, c.isLower = false))
    ∧ (isLikelyPositionCode (stripChars s.data) = true →
        (wsHandleData st s).currentPosition
          = some (String.mk (stripChars s.data)))
    ∧ (isLikelyPositionCode (stripChars s.data) = false →
        optTruthy st.currentPosition = true →
        (wsHandleData st s).depthChart
          = dcAppend st.depthChart (st.currentTeam.getD "")
              (st.currentPosition.getD "") (String.mk (stripChars s.data))) := by
  refine ⟨?_, ?_, ?_⟩
  · rw [isLikelyPositionCode, pyIsUpper]
    simp only [Bool.and_eq_true, List.any_eq_true, List.all_eq_true,
      decide_eq_true_eq, Bool.not_eq_true']
    tauto
  · intro hcode
    rw [wsHandleData]
    simp only [hne, hteam, hcode, Bool.false_eq_true, if_false, if_true]
  · intro hcode hpos
    rw [wsHandleData]
    simp only [hne, hteam, hcode, hpos, Bool.false_eq_true, if_false, if_true]

theorem position_code_characterization_witness :
    (wsHandleData { depthChart := [], currentTeam := some "T",
                    currentPosition := some "P" } "QB").currentPosition
      = some (String.mk (stripChars ("QB").data)) :=
  (position_code_characterization
    { depthChart := [], currentTeam := some "T", currentPosition := some "P" }
    "QB" (by decide) (by decide)).2.1 (by decide)

/-! ### Validity invariant of the emitted team records -/

theorem extractSlug_ne_nil (cs r : List Char) (h : extractSlug cs = some r) :
    r ≠ [] := by
  induction cs with
  | nil => simp [extractSlug] at h
  | cons c rest ih =>
    rw [extractSlug] at h
    split at h
    · dsimp only at h
      split at h
      · exact ih h
      · rename_i hemp
        rw [Option.some_inj] at h
        subst h
        intro hnil
        rw [hnil] at hemp
        simp at hemp
    · exact ih h

theorem mk_beq_empty_false (r : List Char) (h : r ≠ []) :
    (String.mk r == "") = false := by
  cases r with
  | nil => exact absurd rfl h
  | cons c cs =>
    apply beq_eq_false_iff_ne.mpr
    intro hcontra
    exact List.cons_ne_nil c cs (congrArg String.data hcontra)

/-- The invariant of C9: every record so far has truthy team and slug. -/
def stInv (st : ParserState) : Prop :=
  ∀ t ∈ st.teams, teamValid t = true

theorem optTruthy_getD (o : Option String) (h : optTruthy o = true) :
    (o.getD "" == "") = false := by
  cases o with
  | none => simp [optTruthy] at h
  | some s =>
    rw [optTruthy, Bool.not_eq_eq_eq_not, Bool.not_true] at h
    exact h

theorem handleA_inv (st : ParserState) (tag : String)
    (attrs : List (String × String)) (h : stInv st) :
    stInv (handleA st tag attrs) := by
  rw [handleA]
  split
  · split
    · split
      · split
        · dsimp only
          split
          · rename_i href hcond slugCs hslug hpend
            intro t ht
            rcases List.mem_append.mp ht with hmem | hmem
            · exact h t hmem
            · rw [List.mem_singleton] at hmem
              subst hmem
              show (!(st.pendingTeamName.getD "" == "")
                && !(String.mk slugCs == "")) = true
              rw [optTruthy_getD _ hpend,
                mk_beq_empty_false _ (extractSlug_ne_nil _ _ hslug)]
              rfl
          · exact h
        · exact h
      · exact h
    · exact h
  · exact h

theorem handleDiv_inv (st : ParserState) (tag : String)
    (attrs : List (String × String)) (h : stInv st) :
    stInv (handleDiv st tag attrs) := by
  rw [handleDiv]
  split
  · split
    · split
      · exact h
      · exact h
    · exact h
  · exact h

theorem handleData_inv (st : ParserState) (data : String) (h : stInv st) :
    stInv (handleData st data) := by
  rw [handleData]
  dsimp only
  split
  · exact h
  · split
    · split
      · exact h
      · exact h
    · exact h

theorem step_inv (st : ParserState) (e : Event) (h : stInv st) :
    stInv (step st e) := by
  cases e with
  | openTag tag attrs => exact handleDiv_inv _ tag attrs (handleA_inv _ tag attrs h)
  | text d => exact handleData_inv st d h
  | closeTag tag =>
    rw [step, handleEndtag]
    split
    · exact h
    · exact h

theorem foldl_step_inv (events : List Event) (st : ParserState) (h : stInv st) :
    stInv (events.foldl step st) := by
  induction events generalizing st with
  | nil => exact h
  | cons e rest ih => exact ih (step st e) (step_inv st e h)

/-- C9: every record appended to the extractor's emitted sequence has
non-empty (truthy) team and slug fields; no record with an empty required
field is ever emitted during the extraction pass. -/
theorem emitted_records_valid (events : List Event) :
    ∀ t ∈ (feedP events).teams, teamValid t = true :=
  foldl_step_inv events initState (by intro t ht; cases ht)

theorem emitted_records_valid_witness :
    teamValid { team := "Alabama", slug := "alabama" } = true :=
  emitted_records_valid
    [Event.openTag "div" [("class", "team-name")], Event.text "Alabama",
     Event.openTag "a" [("href", "depth-chart.aspx?s=alabama&id=1")]]
    { team := "Alabama", slug := "alabama" } (by decide)

/-! ### Zero-match and unpaired-label behaviour -/

theorem feedR_map_ev (events : List Event) (st : ParserState) :
    feedR st (events.map REvent.ev) = Except.ok (events.foldl step st) := by
  induction events generalizing st with
  | nil => rfl
  | cons e rest ih =>
    rw [List.map_cons, feedR]
    exact ih (step st e)

/-- An event that matches neither the anchor condition nor the label-div
condition of `DepthChartParser.handle_starttag` (no matching label
container, no matching anchor). -/
def eventMatchless : Event → Bool
  | Event.openTag tag attrs =>
      !(tag == "a" && (match attrsLookup attrs "href" with
          | some href => strContains href "depth-chart.aspx" && strContains href "s="
          | none => false))
      && !(tag == "div" && (match attrsLookup attrs "class" with
          | some cls => strContains cls "team-name" || strContains cls "mm-team-name"
          | none => false))
  | _ => true

/-- The parser state reached on a stream with no structural matches:
nothing buffered, nothing emitted, nothing logged. -/
def quiet (st : ParserState) : Prop :=
  st.teams = [] ∧ st.pendingTeamName = none ∧ st.inTeamName = false
    ∧ st.diags = []

theorem handleA_quiet (st : ParserState) (tag : String)
    (attrs : List (String × String)) (h2 : st.pendingTeamName = none) :
    (handleA st tag attrs).teams = st.teams
    ∧ (handleA st tag attrs).pendingTeamName = none
    ∧ (handleA st tag attrs).inTeamName = st.inTeamName
    ∧ (handleA st tag attrs).diags = st.diags := by
  rw [handleA]
  split
  · split
    · split
      · split
        · dsimp only
          split
          · rename_i hpend
            rw [h2] at hpend
            simp [optTruthy] at hpend
          · exact ⟨rfl, h2, rfl, rfl⟩
        · exact ⟨rfl, h2, rfl, rfl⟩
      · exact ⟨rfl, h2, rfl, rfl⟩
    · exact ⟨rfl, h2, rfl, rfl⟩
  · exact ⟨rfl, h2, rfl, rfl⟩

theorem step_quiet (st : ParserState) (e : Event) (hq : quiet st)
    (he : eventMatchless e = true) : quiet (step st e) := by
  obtain ⟨h1, h2, h3, h4⟩ := hq
  cases e with
  | openTag tag attrs =>
    rw [eventMatchless] at he
    rw [Bool.and_eq_true, Bool.not_eq_true', Bool.not_eq_true'] at he
    obtain ⟨heA, heD⟩ := he
    show quiet (handleDiv (handleA _ tag attrs) tag attrs)
    have hA := handleA_quiet { st with tagCount := st.tagCount + 1 } tag attrs h2
    rw [handleDiv]
    split
    · rename_i htag
      split
      · rename_i cls hcls
        split
        · rename_i hmatch
          simp only [htag, Bool.true_and, hcls] at heD
          rw [hmatch] at heD
          cases heD
        · exact ⟨hA.1.trans h1, hA.2.1, hA.2.2.1.trans h3, hA.2.2.2.trans h4⟩
      · exact ⟨hA.1.trans h1, hA.2.1, hA.2.2.1.trans h3, hA.2.2.2.trans h4⟩
    · exact ⟨hA.1.trans h1, hA.2.1, hA.2.2.1.trans h3, hA.2.2.2.trans h4⟩
  | text d =>
    show quiet (handleData st d)
    rw [handleData]
    dsimp only
    split
    · exact ⟨h1, h2, h3, h4⟩
    · rw [if_neg (by rw [h3]; exact Bool.false_ne_true)]
      exact ⟨h1, h2, h3, h4⟩
  | closeTag tag =>
    show quiet (handleEndtag st tag)
    rw [handleEndtag]
    split
    · exact ⟨h1, h2, rfl, h4⟩
    · exact ⟨h1, h2, h3, h4⟩

theorem run_quiet (events : List Event) (st : ParserState) (hq : quiet st)
    (he : ∀ e ∈ events, eventMatchless e = true) :
    quiet (events.foldl step st) := by
  induction events generalizing st with
  | nil => exact hq
  | cons e rest ih =>
    exact ih (step st e) (step_quiet st e hq (he e (List.mem_cons_self e rest)))
      (fun x hx => he x (List.mem_cons_of_mem e hx))

/-- C7: an event stream containing no matching label containers and no
matching anchors (hence no classifiable text) yields the empty record
list together with the structural-empty diagnostic — a normal value,
distinguished from the parse-exception diagnostic of a hard failure. -/
theorem zero_match_structural_empty (events : List Event)
    (he : ∀ e ∈ events, eventMatchless e = true) :
    scrapePhase (events.map REvent.ev) = ([], [Diag.structuralEmpty]) := by
  have hq := run_quiet events initState ⟨rfl, rfl, rfl, rfl⟩ he
  rw [scrapePhase, feedR_map_ev events initState]
  obtain ⟨h1, h2, h3, h4⟩ := hq
  simp [h1, h2, h4, optTruthy]

theorem zero_match_structural_empty_witness :
    scrapePhase ([Event.text "hello", Event.openTag "p" [],
        Event.closeTag "p"].map REvent.ev)
      = ([], [Diag.structuralEmpty]) :=
  zero_match_structural_empty
    [Event.text "hello", Event.openTag "p" [], Event.closeTag "p"] (by decide)

/-- C8: when the stream ends with a pending (truthy) team name still
buffered, the scrape phase logs an unpaired-label diagnostic, and the
returned record sequence is the same function of the accumulated team
records alone — no partial record is emitted for the buffered name. -/
theorem unpaired_label_diag (events : List Event)
    (h : optTruthy (feedP events).pendingTeamName = true) :
    Diag.unpaired ((feedP events).pendingTeamName.getD "")
        ∈ (scrapePhase (events.map REvent.ev)).2
    ∧ (scrapePhase (events.map REvent.ev)).1
      = teamsOutput (feedP events).teams := by
  rw [scrapePhase, feedR_map_ev events initState]
  rw [feedP] at h
  rw [feedP, teamsOutput]
  dsimp only
  rw [if_pos h]
  by_cases hlen : (((events.foldl step initState).teams.length == 0) = true)
  · rw [if_pos hlen, if_pos hlen]
    exact ⟨by simp, rfl⟩
  · rw [if_neg hlen, if_neg hlen]
    exact ⟨by simp, rfl⟩

/-- The stream used to witness the unpaired-label behaviour: one paired
team and one dangling buffered label at the end. -/
def danglingStream : List Event :=
  [Event.openTag "div" [("class", "team-name")], Event.text "Crimson",
   Event.openTag "a" [("href", "depth-chart.aspx?s=alabama&id=1")],
   Event.openTag "div" [("class", "team-name")], Event.text "Dangling"]

theorem unpaired_label_diag_witness :
    Diag.unpaired ((feedP danglingStream).pendingTeamName.getD "")
        ∈ (scrapePhase (danglingStream.map REvent.ev)).2
    ∧ (scrapePhase (danglingStream.map REvent.ev)).1
      = teamsOutput (feedP danglingStream).teams :=
  unpaired_label_diag danglingStream (by decide)

/-- C1: an event sequence opening a div whose class contains
`team-name`, then the text `Alabama`, then an anchor whose href contains
`depth-chart.aspx` with `s=alabama`, makes the extractor emit exactly one
record `{team: "Alabama", slug: "alabama"}`, pairing the buffered name
with the captured identifier and clearing the buffer. -/
theorem pairing_emits_single_team (cls : String)
    (hcls : strContains cls "team-name" = true) :
    (feedP [Event.openTag "div" [("class", cls)], Event.text "Alabama",
        Event.openTag "a" [("href", "depth-chart.aspx?s=alabama&id=1")]]).teams
      = [{ team := "Alabama", slug := "alabama" }]
    ∧ (feedP [Event.openTag "div" [("class", cls)], Event.text "Alabama",
        Event.openTag "a" [("href", "depth-chart.aspx?s=alabama&id=1")]]).pendingTeamName
      = none := by
  have h1 : step initState (Event.openTag "div" [("class", cls)])
      = { initState with tagCount := 1, inTeamName := true } := by
    show handleDiv (handleA { initState with tagCount := 1 } "div" [("class", cls)])
        "div" [("class", cls)] = _
    have hA : handleA { initState with tagCount := 1 } "div" [("class", cls)]
        = { initState with tagCount := 1 } := by
      rw [handleA, if_neg (by decide)]
    rw [hA, handleDiv, if_pos (by decide)]
    rw [show attrsLookup [("class", cls)] "class" = some cls from rfl]
    dsimp only
    rw [if_pos (by rw [hcls]; rfl)]
  constructor
  · show (step (step (step initState
        (Event.openTag "div" [("class", cls)])) (Event.text "Alabama"))
        (Event.openTag "a" [("href", "depth-chart.aspx?s=alabama&id=1")])).teams = _
    rw [h1]
    decide
  · show (step (step (step initState
        (Event.openTag "div" [("class", cls)])) (Event.text "Alabama"))
        (Event.openTag "a" [("href", "depth-chart.aspx?s=alabama&id=1")])).pendingTeamName = _
    rw [h1]
    decide

theorem pairing_emits_single_team_witness :
    (feedP [Event.openTag "div" [("class", "team-name")], Event.text "Alabama",
        Event.openTag "a" [("href", "depth-chart.aspx?s=alabama&id=1")]]).teams
      = [{ team := "Alabama", slug := "alabama" }]
    ∧ (feedP [Event.openTag "div" [("class", "team-name")], Event.text "Alabama",
        Event.openTag "a" [("href", "depth-chart.aspx?s=alabama&id=1")]]).pendingTeamName
      = none :=
  pairing_emits_single_team "team-name" (by decide)
